import Mathlib

/-!
Verification of the agent-colosseum match engine.

Shallow embedding of the backend game engines and the match orchestrator:
`backend/game_engine.py` (Resource Capture), `backend/negotiation_engine.py`
(Sequential Negotiation), `backend/auction_engine.py` (Sealed-Bid Auction),
and `backend/match.py` (orchestrator / event stream).

Python integers are modelled as `Int`.  Python floor division `//` is
`Int.fdiv`.  Python `int(x)` truncation toward zero of an exact product is
`Int.tdiv`; the two float expressions in the source, `int(amount * 0.10)` and
`int((amount + boost) * 1.5)`, are modelled as `amount.tdiv 10` and
`(3 * (amount + boost)).tdiv 2`, which agree with the float computation for
all magnitudes that arise (budget allocations; exact up to 2^50).
Human-readable `description` strings carried by resolutions are omitted:
they are presentation-only and no property concerns them.
Randomness (the auction tie coin flip) is passed in as an explicit argument.
-/

inductive Agent
  | red
  | blue
  deriving DecidableEq, Repr

/-! ## Resource Capture engine (`backend/game_engine.py`) -/

inductive MoveType
  | aggressive_bid
  | defensive_spread
  | bluff
  | counter
  | retreat
  deriving DecidableEq, Repr

inductive Resource
  | A
  | B
  | C
  deriving DecidableEq, Repr

structure Move where
  type : MoveType
  target : Resource
  amount : Int
  deriving DecidableEq, Repr

structure GameState where
  resA : Int
  resB : Int
  resC : Int
  redScore : Int
  blueScore : Int
  round_number : Int
  total_rounds : Int
  redBonus : Int
  blueBonus : Int
  deriving DecidableEq, Repr

/-- The default-constructed `GameState` of the source (pools 100, scores 0,
round 1, bonuses 0), with a chosen `total_rounds`. -/

def initGameState (totalRounds : Int) : GameState :=
  ⟨100, 100, 100, 0, 0, 1, totalRounds, 0, 0⟩

def GameState.getRes (s : GameState) (r : Resource) : Int :=
  match r with
  | .A => s.resA
  | .B => s.resB
  | .C => s.resC

def GameState.subRes (s : GameState) (r : Resource) (d : Int) : GameState :=
  match r with
  | .A => { s with resA := s.resA - d }
  | .B => { s with resB := s.resB - d }
  | .C => { s with resC := s.resC - d }

/-- Model of `int(amount * 0.10)` of the source: the 10% compounding economy bonus
credited by a retreat move. -/

def retreatBonus (amount : Int) : Int :=
  amount.tdiv 10

/-- The retreat/economy pass at the top of `resolve_round`: each agent whose
move is a retreat has `int(amount * 0.10)` added to its economy bonus. -/

def applyRetreats (redMove blueMove : Move) (s : GameState) : GameState :=
  let s1 :=
    if redMove.type = .retreat then
      { s with redBonus := s.redBonus + retreatBonus redMove.amount }
    else s
  if blueMove.type = .retreat then
    { s1 with blueBonus := s1.blueBonus + retreatBonus blueMove.amount }
  else s1

/-- Model of `apply_move` of the source: the effective power a move contributes to
resource `r`, given the mover's (already updated) economy bonus. -/

def powerOn (bonus : Int) (m : Move) (r : Resource) : Int :=
  match m.type with
  | .aggressive_bid => if m.target = r then m.amount + bonus else 0
  | .defensive_spread => (m.amount + bonus).fdiv 3
  | .bluff => if m.target = r then m.amount.fdiv 4 + bonus else 0
  | .counter => if m.target = r then (3 * (m.amount + bonus)).tdiv 2 else 0
  | .retreat => 0

structure RWResolution where
  round_winner : Option Agent
  resource_changes : List (Resource × Int × Int)
  deriving DecidableEq, Repr

/-- One iteration of the per-resource resolution loop of `resolve_round`:
`acc` is (state, red score delta, blue score delta, resource changes). -/

def poolStep (r : Resource) (rp bp : Int)
    (acc : GameState × Int × Int × List (Resource × Int × Int)) :
    GameState × Int × Int × List (Resource × Int × Int) :=
  let (s, rd, bd, ch) := acc
  if rp = 0 ∧ bp = 0 then acc
  else if rp > bp then
    let cap := min (s.getRes r) (max 5 ((rp - bp).fdiv 2))
    (s.subRes r cap, rd + cap, bd, ch ++ [(r, cap, 0)])
  else if bp > rp then
    let cap := min (s.getRes r) (max 5 ((bp - rp).fdiv 2))
    (s.subRes r cap, rd, bd + cap, ch ++ [(r, 0, cap)])
  else
    (s, rd, bd, ch ++ [(r, 0, 0)])

/-- Model of `resolve_round` of `backend/game_engine.py`, as a pure function returning
the updated state together with the round resolution. -/

def resolveRound (redMove blueMove : Move) (s0 : GameState) :
    GameState × RWResolution :=
  let s := applyRetreats redMove blueMove s0
  let rp := fun r => powerOn s.redBonus redMove r
  let bp := fun r => powerOn s.blueBonus blueMove r
  let acc1 := poolStep .A (rp .A) (bp .A) (s, 0, 0, [])
  let acc2 := poolStep .B (rp .B) (bp .B) acc1
  let acc3 := poolStep .C (rp .C) (bp .C) acc2
  let s3 := acc3.1
  let rd := acc3.2.1
  let bd := acc3.2.2.1
  let ch := acc3.2.2.2
  let s4 := { s3 with redScore := s3.redScore + rd, blueScore := s3.blueScore + bd }
  let w : Option Agent :=
    if rd > bd then some .red else if bd > rd then some .blue else none
  (s4, ⟨w, ch⟩)

/-- Capture granted to the pool winner: `min(remainingPool, max(5, diff // 2))`. -/

def capWin (pool diff : Int) : Int :=
  min pool (max 5 (diff.fdiv 2))

/-- Spec-side: the units red captures from pool `r` this round. -/

def redCapture (redMove blueMove : Move) (s0 : GameState) (r : Resource) : Int :=
  let s := applyRetreats redMove blueMove s0
  let rp := powerOn s.redBonus redMove r
  let bp := powerOn s.blueBonus blueMove r
  if rp > bp then capWin (s0.getRes r) (rp - bp) else 0

/-- Spec-side: the units blue captures from pool `r` this round. -/

def blueCapture (redMove blueMove : Move) (s0 : GameState) (r : Resource) : Int :=
  let s := applyRetreats redMove blueMove s0
  let rp := powerOn s.redBonus redMove r
  let bp := powerOn s.blueBonus blueMove r
  if bp > rp then capWin (s0.getRes r) (bp - rp) else 0

def default_move : Move :=
  ⟨.defensive_spread, .A, 60⟩

/-- Red's effective power on pool `r` this round (economy pass applied first,
as in the source). -/

def redPowerOn (rm bm : Move) (s0 : GameState) (r : Resource) : Int :=
  powerOn (applyRetreats rm bm s0).redBonus rm r

/-- Blue's effective power on pool `r` this round. -/

def bluePowerOn (rm bm : Move) (s0 : GameState) (r : Resource) : Int :=
  powerOn (applyRetreats rm bm s0).blueBonus bm r

/-! ## Sequential Negotiation engine (`backend/negotiation_engine.py`) -/

inductive NegotiationMoveType
  | propose
  | accept
  | reject
  | counter_offer
  | bluff_walkaway
  deriving DecidableEq, Repr

structure NegotiationMove where
  type : NegotiationMoveType
  price : Int
  terms : String
  deriving DecidableEq, Repr

/-- Red is the seller (high price good for red), blue the buyer. -/

structure NegotiationState where
  round_number : Int
  total_rounds : Int
  red_walkaway : Int
  blue_walkaway : Int
  current_offer : Option Int
  offer_by : Option Agent
  deal_price : Option Int
  deal_round : Option Int
  redScore : Int
  blueScore : Int
  redBluffs : Int
  blueBluffs : Int
  deriving DecidableEq, Repr

structure NegotiationResolution where
  round_winner : Option Agent
  deal_struck : Bool
  deal_price : Option Int
  deriving DecidableEq, Repr

/-- A propose or counter-offer move carries a usable price. -/

def isProposal (t : NegotiationMoveType) : Bool :=
  match t with
  | .propose => true
  | .counter_offer => true
  | _ => false

/-- Model of `resolve_round` of `backend/negotiation_engine.py`.  The chain of deal
checks of the source (accept-of-standing-offer first, then propose-met-by-
accept, then price crossing) is mirrored by the chain of `Option` fallbacks. -/

def negResolveRound (rm bm : NegotiationMove) (g0 : NegotiationState) :
    NegotiationState × NegotiationResolution :=
  let g1 :=
    if rm.type = .bluff_walkaway then { g0 with redBluffs := g0.redBluffs + 1 } else g0
  let g :=
    if bm.type = .bluff_walkaway then { g1 with blueBluffs := g1.blueBluffs + 1 } else g1
  if rm.type = .bluff_walkaway ∧ bm.type = .bluff_walkaway then
    (g, ⟨none, false, none⟩)
  else
    let acceptDeal : Option Int :=
      if rm.type = .accept ∨ bm.type = .accept then g.current_offer else none
    let dealAfterPropose : Option Int :=
      match acceptDeal with
      | some p => some p
      | none =>
        if isProposal rm.type ∧ bm.type = .accept then some rm.price
        else if isProposal bm.type ∧ rm.type = .accept then some bm.price
        else none
    let dealPrice : Option Int :=
      match dealAfterPropose with
      | some p => some p
      | none =>
        if isProposal rm.type ∧ isProposal bm.type ∧ rm.price ≤ bm.price then
          some ((rm.price + bm.price).fdiv 2)
        else none
    match dealPrice with
    | some p =>
      let red_gain := max 0 (p - g.red_walkaway)
      let blue_gain := max 0 (g.blue_walkaway - p)
      let g' := { g with
        deal_price := some p, deal_round := some g.round_number,
        redScore := g.redScore + red_gain, blueScore := g.blueScore + blue_gain }
      let w : Option Agent :=
        if red_gain > blue_gain then some .red
        else if blue_gain > red_gain then some .blue
        else none
      (g', ⟨w, true, some p⟩)
    | none =>
      let g' :=
        if isProposal rm.type then
          { g with current_offer := some rm.price, offer_by := some .red }
        else if isProposal bm.type then
          { g with current_offer := some bm.price, offer_by := some .blue }
        else g
      (g', ⟨none, false, none⟩)

def negotiation_default_move : NegotiationMove :=
  ⟨.propose, 50, ""⟩

/-! ## Sealed-Bid Auction engine (`backend/auction_engine.py`) -/

inductive AuctionMoveType
  | bid
  | pass
  | bluff_bid
  deriving DecidableEq, Repr

structure AuctionMove where
  type : AuctionMoveType
  amount : Int
  deriving DecidableEq, Repr

structure AuctionItem where
  name : String
  base_value : Int
  red_valuation : Int
  blue_valuation : Int
  deriving DecidableEq, Repr

structure WonItem where
  name : String
  bid : Int
  paid : Int
  valuation : Int
  deriving DecidableEq, Repr

structure AuctionState where
  round_number : Int
  total_rounds : Int
  redCredits : Int
  blueCredits : Int
  items : List AuctionItem
  redWon : List WonItem
  blueWon : List WonItem
  redScore : Int
  blueScore : Int
  redSpent : Int
  blueSpent : Int
  redBluffs : Int
  blueBluffs : Int
  deriving DecidableEq, Repr

/-- Model of `current_item`: the item of the current (1-based) round, if any. -/

def AuctionState.currentItem (g : AuctionState) : Option AuctionItem :=
  if 0 ≤ g.round_number - 1 then g.items.get? (g.round_number - 1).toNat else none

structure AuctionResolution where
  round_winner : Option Agent
  item_name : String
  winning_bid : Int
  deriving DecidableEq, Repr

/-- Model of `effective_bid` (without its bluff-counter side effect): a pass bids 0,
anything else bids its declared amount — a bluff bid competes at full value. -/

def effectiveBid (m : AuctionMove) : Int :=
  match m.type with
  | .pass => 0
  | .bid => m.amount
  | .bluff_bid => m.amount

/-- Payment and bookkeeping for the side that wins the item: a bluff bid pays
only half its (credit-capped) bid, and payment is capped at remaining
credits once more. -/

def awardTo (winner : Agent) (wMove : AuctionMove) (wBid : Int) (item : AuctionItem)
    (g : AuctionState) : AuctionState :=
  let pay0 := if wMove.type = .bluff_bid then wBid.fdiv 2 else wBid
  match winner with
  | .red =>
    let pay := min pay0 g.redCredits
    { g with
      redCredits := g.redCredits - pay
      redSpent := g.redSpent + pay
      redWon := g.redWon ++ [⟨item.name, wBid, pay, item.red_valuation⟩]
      redScore := g.redScore + (item.red_valuation - pay) }
  | .blue =>
    let pay := min pay0 g.blueCredits
    { g with
      blueCredits := g.blueCredits - pay
      blueSpent := g.blueSpent + pay
      blueWon := g.blueWon ++ [⟨item.name, wBid, pay, item.blue_valuation⟩]
      blueScore := g.blueScore + (item.blue_valuation - pay) }

/-- The bluff-counter side effect of `effective_bid` (incremented for each
side whose move is a bluff bid, before bids are compared). -/

def bluffTrack (rm bm : AuctionMove) (g0 : AuctionState) : AuctionState :=
  { g0 with
    redBluffs := g0.redBluffs + (if rm.type = .bluff_bid then 1 else 0)
    blueBluffs := g0.blueBluffs + (if bm.type = .bluff_bid then 1 else 0) }

/-- Model of `resolve_round` of `backend/auction_engine.py`.  `coin` is the uniform
tie-break draw of the source, passed explicitly. -/

def aucResolveRound (coin : Agent) (rm bm : AuctionMove) (g0 : AuctionState) :
    AuctionState × AuctionResolution :=
  match g0.currentItem with
  | none => (g0, ⟨none, "", 0⟩)
  | some item =>
    let g := bluffTrack rm bm g0
    let red_bid := min (effectiveBid rm) g.redCredits
    let blue_bid := min (effectiveBid bm) g.blueCredits
    if red_bid = 0 ∧ blue_bid = 0 then
      (g, ⟨none, item.name, max red_bid blue_bid⟩)
    else if red_bid > blue_bid then
      (awardTo .red rm red_bid item g, ⟨some .red, item.name, max red_bid blue_bid⟩)
    else if blue_bid > red_bid then
      (awardTo .blue bm blue_bid item g, ⟨some .blue, item.name, max red_bid blue_bid⟩)
    else
      match coin with
      | .red => (awardTo .red rm red_bid item g, ⟨some .red, item.name, max red_bid blue_bid⟩)
      | .blue => (awardTo .blue bm blue_bid item g, ⟨some .blue, item.name, max red_bid blue_bid⟩)

def auction_default_move : AuctionMove :=
  ⟨.bid, 50⟩

/-! ## Match orchestrator (`backend/match.py`)

The orchestrator dispatches on the `game_type` string (`"negotiation"`,
`"auction"`, anything else falls through to Resource Capture — including
`"gpu_bidding"`, which `main.py` accepts as a valid game type).  The two
Decision Sources are opaque external calls; they are modelled as an oracle
from the current state and side to an optional `PredResult`, where `none`
models the call raising an exception (the `except` branch of
`Match._get_prediction`). -/

inductive AnyState
  | resourceWars : GameState → AnyState
  | negotiation : NegotiationState → AnyState
  | auction : AuctionState → AnyState
  deriving DecidableEq, Repr

inductive AnyMove
  | resourceWars : Move → AnyMove
  | negotiation : NegotiationMove → AnyMove
  | auction : AuctionMove → AnyMove
  deriving DecidableEq, Repr

/-- Model of `PredictionResult` of `backend/agent.py` as the orchestrator consumes it:
a list of ranked guesses (payloads opaque here) and an optional chosen move. -/

structure PredResult where
  predictions : List String
  chosen_move : Option AnyMove
  deriving DecidableEq, Repr

/-- Model of `Match.__post_init__` state creation: `rwalk`/`bwalk` stand for the random
negotiation walkaway draws, `items` for the randomly valued auction items. -/

def matchInitState (gt : String) (totalRounds : Int) (rwalk bwalk : Int)
    (items : List AuctionItem) : AnyState :=
  if gt = "negotiation" then
    .negotiation ⟨1, totalRounds, rwalk, bwalk, none, none, none, none, 0, 0, 0, 0⟩
  else if gt = "auction" then
    .auction ⟨1, min totalRounds 8, 1000, 1000, items, [], [], 0, 0, 0, 0, 0, 0⟩
  else
    .resourceWars (initGameState totalRounds)

/-- Model of `Match._default_move`. -/

def matchDefaultMove (gt : String) : AnyMove :=
  if gt = "negotiation" then .negotiation negotiation_default_move
  else if gt = "auction" then .auction auction_default_move
  else .resourceWars default_move

/-- Model of `Match._resolve_round` (state component).  A variant mismatch between
moves and state cannot occur in a run, since both are selected from the same
`game_type`; it is mapped to the identity. -/

def matchResolveState (gt : String) (coin : Agent) (rm bm : AnyMove)
    (s : AnyState) : AnyState :=
  if gt = "negotiation" then
    match s, rm, bm with
    | .negotiation g, .negotiation r, .negotiation b => .negotiation (negResolveRound r b g).1
    | _, _, _ => s
  else if gt = "auction" then
    match s, rm, bm with
    | .auction g, .auction r, .auction b => .auction (aucResolveRound coin r b g).1
    | _, _, _ => s
  else
    match s, rm, bm with
    | .resourceWars g, .resourceWars r, .resourceWars b => .resourceWars (resolveRound r b g).1
    | _, _, _ => s

/-- Model of `is_game_over` of `backend/game_engine.py`. -/

def rwIsOver (g : GameState) : Bool :=
  if g.total_rounds < g.round_number then true
  else if g.resA ≤ 0 ∧ g.resB ≤ 0 ∧ g.resC ≤ 0 then true
  else false

/-- Model of `is_game_over` of `backend/negotiation_engine.py`. -/

def negIsOver (g : NegotiationState) : Bool :=
  if g.deal_price.isSome then true
  else if g.total_rounds < g.round_number then true
  else false

/-- Model of `is_game_over` of `backend/auction_engine.py`. -/

def aucIsOver (g : AuctionState) : Bool :=
  if g.total_rounds < g.round_number then true
  else if g.redCredits ≤ 0 ∧ g.blueCredits ≤ 0 then true
  else false

/-- Model of `Match._is_game_over` (mismatched variant shapes are treated as over). -/

def matchIsOver (gt : String) (s : AnyState) : Bool :=
  if gt = "negotiation" then
    match s with
    | .negotiation g => negIsOver g
    | _ => true
  else if gt = "auction" then
    match s with
    | .auction g => aucIsOver g
    | _ => true
  else
    match s with
    | .resourceWars g => rwIsOver g
    | _ => true

def AnyState.roundNumber : AnyState → Int
  | .resourceWars g => g.round_number
  | .negotiation g => g.round_number
  | .auction g => g.round_number

def AnyState.totalRounds : AnyState → Int
  | .resourceWars g => g.total_rounds
  | .negotiation g => g.total_rounds
  | .auction g => g.total_rounds

/-- Model of `self.game_state.round_number += 1` at the bottom of the match loop. -/

def AnyState.incRound : AnyState → AnyState
  | .resourceWars g => .resourceWars { g with round_number := g.round_number + 1 }
  | .negotiation g => .negotiation { g with round_number := g.round_number + 1 }
  | .auction g => .auction { g with round_number := g.round_number + 1 }

/-- The events of the streaming protocol (payloads beyond round / side /
branch index are carried by the source but irrelevant to ordering). -/

inductive MatchEvent
  | match_start
  | round_start (round : Int)
  | thinking_start (agent : Agent)
  | prediction (agent : Agent) (branchIndex : Nat)
  | thinking_end (agent : Agent)
  | collapse
  | round_end (round : Int)
  | match_end
  deriving DecidableEq, Repr

/-- A Decision Source: `none` models `predict_opponent` raising. -/

def Oracle : Type :=
  AnyState → Agent → Option PredResult

/-- Model of `Match._get_prediction`: on failure, an empty prediction list and the
variant's default move, for that side only. -/

def getPrediction (gt : String) (oracle : Oracle) (s : AnyState) (a : Agent) :
    PredResult :=
  match oracle s a with
  | some r => r
  | none => ⟨[], some (matchDefaultMove gt)⟩

/-- Model of `red_move = red_result.chosen_move or self._default_move()` for both
sides. -/

def roundMoves (gt : String) (oracle : Oracle) (s : AnyState) : AnyMove × AnyMove :=
  ((getPrediction gt oracle s .red).chosen_move.getD (matchDefaultMove gt),
   (getPrediction gt oracle s .blue).chosen_move.getD (matchDefaultMove gt))

/-- The `prediction` events streamed for one side's ranked guesses. -/

def predEvents (a : Agent) (n : Nat) : List MatchEvent :=
  (List.range n).map (MatchEvent.prediction a)

/-- Model of `Match._run_round`: the events it yields, in yield order, and the state
after resolution (the round counter is advanced by the caller). -/

def runRound (gt : String) (oracle : Oracle) (coin : Agent) (s : AnyState) :
    List MatchEvent × AnyState :=
  let r := s.roundNumber
  let redRes := getPrediction gt oracle s .red
  let blueRes := getPrediction gt oracle s .blue
  let s' := matchResolveState gt coin (roundMoves gt oracle s).1 (roundMoves gt oracle s).2 s
  ([.round_start r, .thinking_start .red, .thinking_start .blue]
     ++ predEvents .red redRes.predictions.length
     ++ predEvents .blue blueRes.predictions.length
     ++ [.thinking_end .red, .thinking_end .blue, .collapse, .round_end r],
   s')

/-- The `while not self._is_game_over()` loop of `run_match`, fuelled; the
fuel chosen by `runMatch` never runs out before the loop guard stops the
loop (`matchIsOver_of_fuel_zero`). -/

def runMatchAux (gt : String) (oracle : Oracle) (coins : AnyState → Agent) :
    Nat → AnyState → List MatchEvent
  | 0, _ => []
  | fuel + 1, s =>
    if matchIsOver gt s then []
    else
      let (evs, s') := runRound gt oracle (coins s) s
      evs ++ runMatchAux gt oracle coins fuel s'.incRound

def matchFuel (s : AnyState) : Nat :=
  (s.totalRounds + 1 - s.roundNumber).toNat

/-- Model of `Match.run_match`: the full event stream of a match. -/

def runMatch (gt : String) (oracle : Oracle) (coins : AnyState → Agent)
    (s : AnyState) : List MatchEvent :=
  .match_start :: runMatchAux gt oracle coins (matchFuel s) s ++ [.match_end]

/-- Example oracle for witnesses: red's decision call raises, blue returns
one guess and a chosen move. -/

def oracleEx : Oracle := fun _ a =>
  match a with
  | .red => none
  | .blue => some ⟨["aggressive_bid_A"], some (.resourceWars ⟨.aggressive_bid, .A, 50⟩)⟩

def coinsEx : AnyState → Agent := fun _ => .red

/-- Example oracle for witnesses: blue's decision call raises, red returns
one guess and a chosen move. -/
def oracleExB : Oracle := fun _ a =>
  match a with
  | .red => some ⟨["counter_B"], some (.resourceWars ⟨.counter, .B, 40⟩)⟩
  | .blue => none

/-! ## Theorems -/

/-! ## Lemmas about the Resource Capture resolution -/

lemma subRes_zero (s : GameState) (r : Resource) : s.subRes r 0 = s := by
  cases r <;> simp [GameState.subRes]

lemma getRes_subRes_self (s : GameState) (r : Resource) (d : Int) :
    (s.subRes r d).getRes r = s.getRes r - d := by
  cases r <;> rfl

lemma getRes_subRes_ne (s : GameState) (r r' : Resource) (d : Int) (h : r ≠ r') :
    (s.subRes r' d).getRes r = s.getRes r := by
  cases r <;> cases r' <;> first | rfl | exact absurd rfl h

lemma subRes_redScore (s : GameState) (r : Resource) (d : Int) :
    (s.subRes r d).redScore = s.redScore := by
  cases r <;> rfl

lemma subRes_blueScore (s : GameState) (r : Resource) (d : Int) :
    (s.subRes r d).blueScore = s.blueScore := by
  cases r <;> rfl

lemma applyRetreats_getRes (rm bm : Move) (s : GameState) (r : Resource) :
    (applyRetreats rm bm s).getRes r = s.getRes r := by
  unfold applyRetreats
  cases r <;> dsimp only <;> split <;> split <;> rfl

lemma applyRetreats_redScore (rm bm : Move) (s : GameState) :
    (applyRetreats rm bm s).redScore = s.redScore := by
  unfold applyRetreats
  dsimp only; split <;> split <;> rfl

lemma applyRetreats_blueScore (rm bm : Move) (s : GameState) :
    (applyRetreats rm bm s).blueScore = s.blueScore := by
  unfold applyRetreats
  dsimp only; split <;> split <;> rfl

/-- Characterization of one pool-resolution step in terms of the two capture
amounts (the code takes at most one of the three mutating branches; stated
uniformly, the loser's capture is 0). -/
lemma poolStep_spec (r : Resource) (rp bp : Int)
    (s : GameState) (rd bd : Int) (ch : List (Resource × Int × Int)) :
    poolStep r rp bp (s, rd, bd, ch) =
      (s.subRes r ((if rp > bp then capWin (s.getRes r) (rp - bp) else 0)
          + (if bp > rp then capWin (s.getRes r) (bp - rp) else 0)),
       rd + (if rp > bp then capWin (s.getRes r) (rp - bp) else 0),
       bd + (if bp > rp then capWin (s.getRes r) (bp - rp) else 0),
       ch ++ (if rp = 0 ∧ bp = 0 then []
              else if rp > bp then [(r, capWin (s.getRes r) (rp - bp), 0)]
              else if bp > rp then [(r, 0, capWin (s.getRes r) (bp - rp))]
              else [(r, 0, 0)])) := by
  unfold poolStep capWin
  rcases lt_trichotomy rp bp with h | h | h
  · have h1 : ¬ rp > bp := by omega
    have h2 : bp > rp := h
    have h3 : ¬ (rp = 0 ∧ bp = 0) := by omega
    simp [h1, h2, h3]
  · subst h
    have h1 : ¬ rp > rp := by omega
    by_cases h0 : rp = 0 ∧ rp = 0
    · simp [h1, h0.1, subRes_zero]
    · have h0' : ¬ rp = 0 := fun h => h0 ⟨h, h⟩
      simp [h1, h0', subRes_zero]
  · have h1 : rp > bp := h
    have h2 : ¬ bp > rp := by omega
    have h3 : ¬ (rp = 0 ∧ bp = 0) := by omega
    simp [h1, h2, h3]

/-- The state produced by `resolveRound`: each pool loses the winner's
capture, and each side's score grows by the sum of its captures. -/
lemma resolveRound_state (rm bm : Move) (s0 : GameState) :
    (resolveRound rm bm s0).1 =
      (let s := applyRetreats rm bm s0
       let s' := ((s.subRes .A (redCapture rm bm s0 .A + blueCapture rm bm s0 .A)).subRes .B
           (redCapture rm bm s0 .B + blueCapture rm bm s0 .B)).subRes .C
           (redCapture rm bm s0 .C + blueCapture rm bm s0 .C)
       { s' with
          redScore := s'.redScore +
            (0 + redCapture rm bm s0 .A + redCapture rm bm s0 .B + redCapture rm bm s0 .C),
          blueScore := s'.blueScore +
            (0 + blueCapture rm bm s0 .A + blueCapture rm bm s0 .B + blueCapture rm bm s0 .C) }) := by
  simp only [resolveRound, poolStep_spec, redCapture, blueCapture, capWin,
    applyRetreats_getRes, getRes_subRes_ne, ne_eq, reduceCtorEq, not_false_iff]

lemma tdiv_eq_fdiv_of_nonneg (a b : Int) (h : 0 ≤ a) (hb : 0 ≤ b) :
    a.tdiv b = a.fdiv b := by
  match a, h, b, hb with
  | Int.ofNat 0, _, Int.ofNat n, _ => simp [Int.tdiv, Int.fdiv]
  | Int.ofNat (m+1), _, Int.ofNat n, _ => rfl

lemma applyRetreats_resA (rm bm : Move) (s : GameState) :
    (applyRetreats rm bm s).resA = s.resA := by
  unfold applyRetreats; dsimp only; split <;> split <;> rfl

lemma applyRetreats_resB (rm bm : Move) (s : GameState) :
    (applyRetreats rm bm s).resB = s.resB := by
  unfold applyRetreats; dsimp only; split <;> split <;> rfl

lemma applyRetreats_resC (rm bm : Move) (s : GameState) :
    (applyRetreats rm bm s).resC = s.resC := by
  unfold applyRetreats; dsimp only; split <;> split <;> rfl

/-- C1: in Resource Capture, for every round and pool, the side with strictly
greater effective power captures `min(pre-round pool, max(5, powerDiff/2))`
units, added to its score and removed from that pool; equal powers transfer
nothing from that pool.  In particular, on pools {A:100,B:100,C:100} with no
economy bonus, aggressive-bid(A,80) vs defensive-spread(60) gives blue power
20 on A against red's 80, capture 30, pool A = 70, red score +30. -/
theorem c1_resource_capture_resolution :
    (∀ (rm bm : Move) (s0 : GameState),
      (∀ r, ((resolveRound rm bm s0).1).getRes r
          = s0.getRes r - redCapture rm bm s0 r - blueCapture rm bm s0 r)
      ∧ (resolveRound rm bm s0).1.redScore
          = s0.redScore + redCapture rm bm s0 .A + redCapture rm bm s0 .B
              + redCapture rm bm s0 .C
      ∧ (resolveRound rm bm s0).1.blueScore
          = s0.blueScore + blueCapture rm bm s0 .A + blueCapture rm bm s0 .B
              + blueCapture rm bm s0 .C
      ∧ (∀ r, redCapture rm bm s0 r
          = (if redPowerOn rm bm s0 r > bluePowerOn rm bm s0 r then
              capWin (s0.getRes r) (redPowerOn rm bm s0 r - bluePowerOn rm bm s0 r)
            else 0))
      ∧ (∀ r, blueCapture rm bm s0 r
          = (if bluePowerOn rm bm s0 r > redPowerOn rm bm s0 r then
              capWin (s0.getRes r) (bluePowerOn rm bm s0 r - redPowerOn rm bm s0 r)
            else 0)))
    ∧ ((resolveRound ⟨.aggressive_bid, .A, 80⟩ ⟨.defensive_spread, .A, 60⟩
          (initGameState 10)).1.resA = 70
      ∧ (resolveRound ⟨.aggressive_bid, .A, 80⟩ ⟨.defensive_spread, .A, 60⟩
          (initGameState 10)).1.redScore = 30
      ∧ redPowerOn ⟨.aggressive_bid, .A, 80⟩ ⟨.defensive_spread, .A, 60⟩
          (initGameState 10) .A = 80
      ∧ bluePowerOn ⟨.aggressive_bid, .A, 80⟩ ⟨.defensive_spread, .A, 60⟩
          (initGameState 10) .A = 20) := by
  constructor
  · intro rm bm s0
    refine ⟨fun r => ?_, ?_, ?_, fun r => rfl, fun r => rfl⟩
    · rw [resolveRound_state]
      cases r <;>
        simp only [GameState.getRes, GameState.subRes,
          applyRetreats_resA, applyRetreats_resB, applyRetreats_resC] <;>
        omega
    · rw [resolveRound_state]
      simp only [GameState.subRes, applyRetreats_redScore]
      omega
    · rw [resolveRound_state]
      simp only [GameState.subRes, applyRetreats_blueScore]
      omega
  · exact ⟨by decide, by decide, by decide, by decide⟩

/-- C8 counterexample: with an accumulated economy bonus of 4, a bluff of
amount 4 contributes `4 // 4 + 4 = 5` power, not `(4 + 4) // 4 = 2` as the
claim's "one quarter of (amount plus bonus)" would give. -/
theorem c8_counterexample :
    redPowerOn ⟨.bluff, .A, 4⟩ ⟨.aggressive_bid, .A, 0⟩
        { initGameState 10 with redBonus := 4 } .A = 5
    ∧ (((4 : Int) + 4).fdiv 4) = 2
    ∧ ¬ (redPowerOn ⟨.bluff, .A, 4⟩ ⟨.aggressive_bid, .A, 0⟩
          { initGameState 10 with redBonus := 4 } .A
        = ((⟨.bluff, .A, 4⟩ : Move).amount
            + ({ initGameState 10 with redBonus := 4 } : GameState).redBonus).fdiv 4) := by
  refine ⟨by decide, by decide, by decide⟩

/-- C8 (amended): for every bluff move by either side, the effective power
contributed to the move's target pool is one quarter of the amount (floor)
plus that side's full accumulated economy bonus. -/
theorem c8_bluff_power (rm bm : Move) (s0 : GameState) :
    (rm.type = .bluff →
      redPowerOn rm bm s0 rm.target = rm.amount.fdiv 4 + s0.redBonus)
    ∧ (bm.type = .bluff →
      bluePowerOn rm bm s0 bm.target = bm.amount.fdiv 4 + s0.blueBonus) := by
  constructor
  · intro h
    have hr : ¬ rm.type = .retreat := by rw [h]; decide
    unfold redPowerOn applyRetreats
    simp only [hr, if_false]
    split <;> simp [powerOn, h]
  · intro h
    have hb : ¬ bm.type = .retreat := by rw [h]; decide
    unfold bluePowerOn applyRetreats
    simp only [hb, if_false]
    split <;> simp [powerOn, h]

/-- C8 witness: concrete bluffs on both sides with nonzero bonuses. -/
theorem c8_bluff_power_witness :
    redPowerOn ⟨.bluff, .B, 40⟩ ⟨.bluff, .C, 20⟩
        { initGameState 10 with redBonus := 3, blueBonus := 7 } .B = 13
    ∧ bluePowerOn ⟨.bluff, .B, 40⟩ ⟨.bluff, .C, 20⟩
        { initGameState 10 with redBonus := 3, blueBonus := 7 } .C = 12 := by
  have h := c8_bluff_power ⟨.bluff, .B, 40⟩ ⟨.bluff, .C, 20⟩
    { initGameState 10 with redBonus := 3, blueBonus := 7 }
  exact ⟨by rw [h.1 rfl]; decide, by rw [h.2 rfl]; decide⟩

/-- C10: if both sides retreat, the round changes no pool, no score, and has
no winner; the only change is that each side's economy bonus grows by
`floor(amount * 0.10)`. -/
theorem c10_double_retreat (rm bm : Move) (s0 : GameState)
    (h1 : rm.type = .retreat) (h2 : bm.type = .retreat)
    (h3 : 0 ≤ rm.amount) (h4 : 0 ≤ bm.amount) :
    resolveRound rm bm s0 =
      ({ s0 with redBonus := s0.redBonus + rm.amount.fdiv 10,
                 blueBonus := s0.blueBonus + bm.amount.fdiv 10 },
       ⟨none, []⟩) := by
  have e1 : rm.amount.tdiv 10 = rm.amount.fdiv 10 :=
    tdiv_eq_fdiv_of_nonneg _ _ h3 (by decide)
  have e2 : bm.amount.tdiv 10 = bm.amount.fdiv 10 :=
    tdiv_eq_fdiv_of_nonneg _ _ h4 (by decide)
  unfold resolveRound poolStep applyRetreats retreatBonus
  simp [h1, h2, powerOn, e1, e2]

/-- C10 witness: retreat(25) vs retreat(60) on the initial state. -/
theorem c10_double_retreat_witness :
    resolveRound ⟨.retreat, .A, 25⟩ ⟨.retreat, .B, 60⟩ (initGameState 10) =
      ({ initGameState 10 with redBonus := 2, blueBonus := 6 }, ⟨none, []⟩) := by
  rw [c10_double_retreat ⟨.retreat, .A, 25⟩ ⟨.retreat, .B, 60⟩ (initGameState 10)
    rfl rfl (by decide) (by decide)]
  decide

/-- C2: if both sides propose/counter and the seller's (red's) price is at
most the buyer's (blue's) price, a deal is struck that round at the floor of
their average; the state records the deal price and round, and each side's
score grows by its captured surplus over its walkaway. -/
theorem c2_crossing_implies_deal (rm bm : NegotiationMove) (g : NegotiationState)
    (hr : rm.type = .propose ∨ rm.type = .counter_offer)
    (hb : bm.type = .propose ∨ bm.type = .counter_offer)
    (hle : rm.price ≤ bm.price) :
    (negResolveRound rm bm g).2.deal_struck = true
    ∧ (negResolveRound rm bm g).2.deal_price = some ((rm.price + bm.price).fdiv 2)
    ∧ (negResolveRound rm bm g).1.deal_price = some ((rm.price + bm.price).fdiv 2)
    ∧ (negResolveRound rm bm g).1.deal_round = some g.round_number
    ∧ (negResolveRound rm bm g).1.redScore
        = g.redScore + max 0 ((rm.price + bm.price).fdiv 2 - g.red_walkaway)
    ∧ (negResolveRound rm bm g).1.blueScore
        = g.blueScore + max 0 (g.blue_walkaway - (rm.price + bm.price).fdiv 2) := by
  rcases hr with h | h <;> rcases hb with h' | h' <;>
    simp [negResolveRound, isProposal, h, h', hle]

/-- C2 witness: propose(40) vs counter-offer(60) on a fresh round-2 state
with walkaways 30/70 strikes a deal at 50, gains 20/20. -/
theorem c2_crossing_implies_deal_witness :
    (negResolveRound ⟨.propose, 40, ""⟩ ⟨.counter_offer, 60, ""⟩
        ⟨2, 5, 30, 70, none, none, none, none, 0, 0, 0, 0⟩).2.deal_struck = true
    ∧ (negResolveRound ⟨.propose, 40, ""⟩ ⟨.counter_offer, 60, ""⟩
        ⟨2, 5, 30, 70, none, none, none, none, 0, 0, 0, 0⟩).2.deal_price = some 50
    ∧ (negResolveRound ⟨.propose, 40, ""⟩ ⟨.counter_offer, 60, ""⟩
        ⟨2, 5, 30, 70, none, none, none, none, 0, 0, 0, 0⟩).1.deal_round = some 2
    ∧ (negResolveRound ⟨.propose, 40, ""⟩ ⟨.counter_offer, 60, ""⟩
        ⟨2, 5, 30, 70, none, none, none, none, 0, 0, 0, 0⟩).1.redScore = 20
    ∧ (negResolveRound ⟨.propose, 40, ""⟩ ⟨.counter_offer, 60, ""⟩
        ⟨2, 5, 30, 70, none, none, none, none, 0, 0, 0, 0⟩).1.blueScore = 20 := by
  have h := c2_crossing_implies_deal ⟨.propose, 40, ""⟩ ⟨.counter_offer, 60, ""⟩
    ⟨2, 5, 30, 70, none, none, none, none, 0, 0, 0, 0⟩ (Or.inl rfl) (Or.inr rfl)
    (by decide)
  exact ⟨h.1, h.2.1.trans (by decide), h.2.2.2.1.trans (by decide),
    h.2.2.2.2.1.trans (by decide), h.2.2.2.2.2.trans (by decide)⟩

/-- C7 counterexample: with a standing offer of 30 on the table, red proposes
70 and blue accepts, yet the deal is struck at the standing offer 30, not at
the proposer's price 70. -/
theorem c7_counterexample :
    (negResolveRound ⟨.propose, 70, ""⟩ ⟨.accept, 0, ""⟩
        ⟨2, 5, 30, 70, some 30, some .blue, none, none, 0, 0, 0, 0⟩).2.deal_struck = true
    ∧ (negResolveRound ⟨.propose, 70, ""⟩ ⟨.accept, 0, ""⟩
        ⟨2, 5, 30, 70, some 30, some .blue, none, none, 0, 0, 0, 0⟩).2.deal_price = some 30
    ∧ ¬ ((negResolveRound ⟨.propose, 70, ""⟩ ⟨.accept, 0, ""⟩
        ⟨2, 5, 30, 70, some 30, some .blue, none, none, 0, 0, 0, 0⟩).2.deal_price
          = some (70 : Int)) := by
  exact ⟨by decide, by decide, by decide⟩

/-- C7 (amended): when one side proposes/counters and the other accepts, a
deal is struck that round — at the proposer's price when no offer is standing,
and at the standing offer's price otherwise. -/
theorem c7_propose_met_by_accept (rm bm : NegotiationMove) (g : NegotiationState) :
    ((rm.type = .propose ∨ rm.type = .counter_offer) → bm.type = .accept →
      (negResolveRound rm bm g).2.deal_struck = true
      ∧ (negResolveRound rm bm g).2.deal_price = some (g.current_offer.getD rm.price)
      ∧ (negResolveRound rm bm g).1.deal_price = some (g.current_offer.getD rm.price)
      ∧ (negResolveRound rm bm g).1.deal_round = some g.round_number)
    ∧ ((bm.type = .propose ∨ bm.type = .counter_offer) → rm.type = .accept →
      (negResolveRound rm bm g).2.deal_struck = true
      ∧ (negResolveRound rm bm g).2.deal_price = some (g.current_offer.getD bm.price)
      ∧ (negResolveRound rm bm g).1.deal_price = some (g.current_offer.getD bm.price)
      ∧ (negResolveRound rm bm g).1.deal_round = some g.round_number) := by
  constructor
  · intro hr hb
    rcases hr with h | h <;> cases ho : g.current_offer <;>
      simp [negResolveRound, isProposal, h, hb, ho]
  · intro hb hr
    rcases hb with h | h <;> cases ho : g.current_offer <;>
      simp [negResolveRound, isProposal, h, hr, ho]

/-- C7 witness: counter-offer(65) met by accept with no standing offer deals
at 65 in round 3. -/
theorem c7_propose_met_by_accept_witness :
    (negResolveRound ⟨.counter_offer, 65, ""⟩ ⟨.accept, 0, ""⟩
        ⟨3, 5, 30, 70, none, none, none, none, 0, 0, 0, 0⟩).2.deal_struck = true
    ∧ (negResolveRound ⟨.counter_offer, 65, ""⟩ ⟨.accept, 0, ""⟩
        ⟨3, 5, 30, 70, none, none, none, none, 0, 0, 0, 0⟩).2.deal_price = some 65
    ∧ (negResolveRound ⟨.counter_offer, 65, ""⟩ ⟨.accept, 0, ""⟩
        ⟨3, 5, 30, 70, none, none, none, none, 0, 0, 0, 0⟩).1.deal_round = some 3 := by
  have h := (c7_propose_met_by_accept ⟨.counter_offer, 65, ""⟩ ⟨.accept, 0, ""⟩
    ⟨3, 5, 30, 70, none, none, none, none, 0, 0, 0, 0⟩).1 (Or.inr rfl) rfl
  exact ⟨h.1, h.2.1.trans (by decide), h.2.2.2.trans (by decide)⟩

@[simp] lemma bluffTrack_redCredits (rm bm : AuctionMove) (g : AuctionState) :
    (bluffTrack rm bm g).redCredits = g.redCredits := rfl

@[simp] lemma bluffTrack_blueCredits (rm bm : AuctionMove) (g : AuctionState) :
    (bluffTrack rm bm g).blueCredits = g.blueCredits := rfl

@[simp] lemma bluffTrack_redSpent (rm bm : AuctionMove) (g : AuctionState) :
    (bluffTrack rm bm g).redSpent = g.redSpent := rfl

@[simp] lemma bluffTrack_blueSpent (rm bm : AuctionMove) (g : AuctionState) :
    (bluffTrack rm bm g).blueSpent = g.blueSpent := rfl

@[simp] lemma bluffTrack_redScore (rm bm : AuctionMove) (g : AuctionState) :
    (bluffTrack rm bm g).redScore = g.redScore := rfl

@[simp] lemma bluffTrack_blueScore (rm bm : AuctionMove) (g : AuctionState) :
    (bluffTrack rm bm g).blueScore = g.blueScore := rfl

lemma aucResolveRound_red_wins (coin : Agent) (rm bm : AuctionMove)
    (g : AuctionState) (item : AuctionItem)
    (h1 : g.currentItem = some item)
    (h5 : min (effectiveBid rm) g.redCredits > min (effectiveBid bm) g.blueCredits) :
    aucResolveRound coin rm bm g =
      (awardTo .red rm (min (effectiveBid rm) g.redCredits) item (bluffTrack rm bm g),
       ⟨some .red, item.name,
        max (min (effectiveBid rm) g.redCredits) (min (effectiveBid bm) g.blueCredits)⟩) := by
  simp only [aucResolveRound, h1, bluffTrack_redCredits, bluffTrack_blueCredits]
  rw [if_neg (by omega), if_pos h5]

lemma aucResolveRound_blue_wins (coin : Agent) (rm bm : AuctionMove)
    (g : AuctionState) (item : AuctionItem)
    (h1 : g.currentItem = some item)
    (h5 : min (effectiveBid bm) g.blueCredits > min (effectiveBid rm) g.redCredits) :
    aucResolveRound coin rm bm g =
      (awardTo .blue bm (min (effectiveBid bm) g.blueCredits) item (bluffTrack rm bm g),
       ⟨some .blue, item.name,
        max (min (effectiveBid rm) g.redCredits) (min (effectiveBid bm) g.blueCredits)⟩) := by
  simp only [aucResolveRound, h1, bluffTrack_redCredits, bluffTrack_blueCredits]
  rw [if_neg (by omega), if_neg (by omega), if_pos h5]

lemma aucResolveRound_unsold (coin : Agent) (rm bm : AuctionMove)
    (g : AuctionState) (item : AuctionItem)
    (h1 : g.currentItem = some item)
    (hz : min (effectiveBid rm) g.redCredits = 0 ∧ min (effectiveBid bm) g.blueCredits = 0) :
    aucResolveRound coin rm bm g =
      (bluffTrack rm bm g, ⟨none, item.name, 0⟩) := by
  simp only [aucResolveRound, h1, bluffTrack_redCredits, bluffTrack_blueCredits]
  rw [if_pos hz]
  simp [hz.1, hz.2]

lemma aucResolveRound_tie (coin : Agent) (rm bm : AuctionMove)
    (g : AuctionState) (item : AuctionItem)
    (h1 : g.currentItem = some item)
    (ht : min (effectiveBid rm) g.redCredits = min (effectiveBid bm) g.blueCredits)
    (hnz : ¬ (min (effectiveBid rm) g.redCredits = 0
              ∧ min (effectiveBid bm) g.blueCredits = 0)) :
    aucResolveRound coin rm bm g =
      (match coin with
       | .red => awardTo .red rm (min (effectiveBid rm) g.redCredits) item (bluffTrack rm bm g)
       | .blue => awardTo .blue bm (min (effectiveBid bm) g.blueCredits) item (bluffTrack rm bm g),
       ⟨some coin, item.name,
        max (min (effectiveBid rm) g.redCredits) (min (effectiveBid bm) g.blueCredits)⟩) := by
  simp only [aucResolveRound, h1, bluffTrack_redCredits, bluffTrack_blueCredits]
  rw [if_neg hnz, if_neg (by omega), if_neg (by omega)]
  cases coin <;> rfl

lemma fdiv_two_le_of_nonneg (b : Int) (h : 0 ≤ b) :
    b.fdiv 2 ≤ b ∧ 0 ≤ b.fdiv 2 := by
  rw [Int.fdiv_eq_ediv] <;> omega

/-- C3: a bluff bid competes at its full (credit-capped) amount, but a
winning bluff bidder pays only half that amount: its credits fall by
`bid // 2` and its score rises by its private valuation minus the payment. -/
theorem c3_bluff_bid_wins_half_price (coin : Agent) (rm bm : AuctionMove)
    (g : AuctionState) (item : AuctionItem) (h1 : g.currentItem = some item) :
    (rm.type = .bluff_bid → 0 ≤ rm.amount → 0 ≤ g.redCredits →
      min rm.amount g.redCredits > min (effectiveBid bm) g.blueCredits →
      (aucResolveRound coin rm bm g).2.round_winner = some .red
      ∧ (aucResolveRound coin rm bm g).1.redCredits
          = g.redCredits - (min rm.amount g.redCredits).fdiv 2
      ∧ (aucResolveRound coin rm bm g).1.redSpent
          = g.redSpent + (min rm.amount g.redCredits).fdiv 2
      ∧ (aucResolveRound coin rm bm g).1.redScore
          = g.redScore + (item.red_valuation - (min rm.amount g.redCredits).fdiv 2))
    ∧ (bm.type = .bluff_bid → 0 ≤ bm.amount → 0 ≤ g.blueCredits →
      min bm.amount g.blueCredits > min (effectiveBid rm) g.redCredits →
      (aucResolveRound coin rm bm g).2.round_winner = some .blue
      ∧ (aucResolveRound coin rm bm g).1.blueCredits
          = g.blueCredits - (min bm.amount g.blueCredits).fdiv 2
      ∧ (aucResolveRound coin rm bm g).1.blueSpent
          = g.blueSpent + (min bm.amount g.blueCredits).fdiv 2
      ∧ (aucResolveRound coin rm bm g).1.blueScore
          = g.blueScore + (item.blue_valuation - (min bm.amount g.blueCredits).fdiv 2)) := by
  constructor
  · intro h2 h3 h4 h5
    have he : effectiveBid rm = rm.amount := by unfold effectiveBid; rw [h2]
    have hnn : 0 ≤ min rm.amount g.redCredits := le_min h3 h4
    have hfd := fdiv_two_le_of_nonneg _ hnn
    have hle : (min rm.amount g.redCredits).fdiv 2 ≤ g.redCredits :=
      hfd.1.trans (min_le_right _ _)
    rw [aucResolveRound_red_wins coin rm bm g item h1 (by rw [he]; exact h5)]
    simp [awardTo, h2, he, min_eq_left hle]
  · intro h2 h3 h4 h5
    have he : effectiveBid bm = bm.amount := by unfold effectiveBid; rw [h2]
    have hnn : 0 ≤ min bm.amount g.blueCredits := le_min h3 h4
    have hfd := fdiv_two_le_of_nonneg _ hnn
    have hle : (min bm.amount g.blueCredits).fdiv 2 ≤ g.blueCredits :=
      hfd.1.trans (min_le_right _ _)
    rw [aucResolveRound_blue_wins coin rm bm g item h1 (by rw [he]; exact h5)]
    simp [awardTo, h2, he, min_eq_left hle]

/-- C3 witness — the spec's Example 2: both sides at 1000 credits,
bid(200) against bluff-bid(300): blue wins, pays 150, ends at 850 credits,
and gains its valuation (here 120) minus 150. -/
theorem c3_bluff_bid_wins_half_price_witness :
    (aucResolveRound .red ⟨.bid, 200⟩ ⟨.bluff_bid, 300⟩
      ⟨1, 8, 1000, 1000, [⟨"Alpha Core", 100, 110, 120⟩], [], [], 0, 0, 0, 0, 0, 0⟩).2.round_winner
        = some .blue
    ∧ (aucResolveRound .red ⟨.bid, 200⟩ ⟨.bluff_bid, 300⟩
      ⟨1, 8, 1000, 1000, [⟨"Alpha Core", 100, 110, 120⟩], [], [], 0, 0, 0, 0, 0, 0⟩).1.blueCredits
        = 850
    ∧ (aucResolveRound .red ⟨.bid, 200⟩ ⟨.bluff_bid, 300⟩
      ⟨1, 8, 1000, 1000, [⟨"Alpha Core", 100, 110, 120⟩], [], [], 0, 0, 0, 0, 0, 0⟩).1.blueSpent
        = 150
    ∧ (aucResolveRound .red ⟨.bid, 200⟩ ⟨.bluff_bid, 300⟩
      ⟨1, 8, 1000, 1000, [⟨"Alpha Core", 100, 110, 120⟩], [], [], 0, 0, 0, 0, 0, 0⟩).1.blueScore
        = 120 - 150 := by
  have h := (c3_bluff_bid_wins_half_price .red ⟨.bid, 200⟩ ⟨.bluff_bid, 300⟩
    ⟨1, 8, 1000, 1000, [⟨"Alpha Core", 100, 110, 120⟩], [], [], 0, 0, 0, 0, 0, 0⟩
    ⟨"Alpha Core", 100, 110, 120⟩ (by decide)).2 rfl (by decide) (by decide) (by decide)
  exact ⟨h.1, h.2.1.trans (by decide), h.2.2.1.trans (by decide),
    h.2.2.2.trans (by decide)⟩

lemma aucResolveRound_no_item (coin : Agent) (rm bm : AuctionMove)
    (g : AuctionState) (h : g.currentItem = none) :
    aucResolveRound coin rm bm g = (g, ⟨none, "", 0⟩) := by
  simp only [aucResolveRound, h]

/-- C5: in every auction round, each side's post-round credits equal its
pre-round credits minus what that side actually paid (its `total_spent`
delta), the payment never exceeds the pre-round balance, and balances stay
non-negative. -/
theorem c5_credit_conservation (coin : Agent) (rm bm : AuctionMove)
    (g : AuctionState) (h4r : 0 ≤ g.redCredits) (h4b : 0 ≤ g.blueCredits) :
    ((aucResolveRound coin rm bm g).1.redCredits
        = g.redCredits - ((aucResolveRound coin rm bm g).1.redSpent - g.redSpent))
    ∧ (aucResolveRound coin rm bm g).1.redSpent - g.redSpent ≤ g.redCredits
    ∧ 0 ≤ (aucResolveRound coin rm bm g).1.redCredits
    ∧ ((aucResolveRound coin rm bm g).1.blueCredits
        = g.blueCredits - ((aucResolveRound coin rm bm g).1.blueSpent - g.blueSpent))
    ∧ (aucResolveRound coin rm bm g).1.blueSpent - g.blueSpent ≤ g.blueCredits
    ∧ 0 ≤ (aucResolveRound coin rm bm g).1.blueCredits := by
  cases hI : g.currentItem with
  | none =>
    rw [aucResolveRound_no_item coin rm bm g hI]
    refine ⟨?_, ?_, ?_, ?_, ?_, ?_⟩ <;> dsimp only <;> omega
  | some item =>
    rcases lt_trichotomy (min (effectiveBid rm) g.redCredits)
        (min (effectiveBid bm) g.blueCredits) with h | h | h
    · rw [aucResolveRound_blue_wins coin rm bm g item hI h]
      refine ⟨?_, ?_, ?_, ?_, ?_, ?_⟩ <;> simp [awardTo] <;> omega
    · by_cases hz : min (effectiveBid rm) g.redCredits = 0
          ∧ min (effectiveBid bm) g.blueCredits = 0
      · rw [aucResolveRound_unsold coin rm bm g item hI hz]
        refine ⟨by simp, by simp; omega, by simp [h4r], by simp, by simp; omega,
          by simp [h4b]⟩
      · rw [aucResolveRound_tie coin rm bm g item hI h hz]
        cases coin <;> refine ⟨?_, ?_, ?_, ?_, ?_, ?_⟩ <;> simp [awardTo] <;> omega
    · rw [aucResolveRound_red_wins coin rm bm g item hI h]
      refine ⟨?_, ?_, ?_, ?_, ?_, ?_⟩ <;> simp [awardTo] <;> omega

/-- C5 witness: Example-2 inputs — blue pays 150 out of 1000, red pays
nothing, both balances remain non-negative. -/
theorem c5_credit_conservation_witness :
    (0:Int) ≤ 1000
    ∧ ((aucResolveRound .red ⟨.bid, 200⟩ ⟨.bluff_bid, 300⟩
        ⟨1, 8, 1000, 1000, [⟨"Alpha Core", 100, 110, 120⟩], [], [], 0, 0, 0, 0, 0, 0⟩).1.blueCredits
          = 1000 - ((aucResolveRound .red ⟨.bid, 200⟩ ⟨.bluff_bid, 300⟩
        ⟨1, 8, 1000, 1000, [⟨"Alpha Core", 100, 110, 120⟩], [], [], 0, 0, 0, 0, 0, 0⟩).1.blueSpent - 0))
    ∧ 0 ≤ (aucResolveRound .red ⟨.bid, 200⟩ ⟨.bluff_bid, 300⟩
        ⟨1, 8, 1000, 1000, [⟨"Alpha Core", 100, 110, 120⟩], [], [], 0, 0, 0, 0, 0, 0⟩).1.redCredits := by
  have h := c5_credit_conservation .red ⟨.bid, 200⟩ ⟨.bluff_bid, 300⟩
    ⟨1, 8, 1000, 1000, [⟨"Alpha Core", 100, 110, 120⟩], [], [], 0, 0, 0, 0, 0, 0⟩
    (by decide) (by decide)
  exact ⟨by decide, h.2.2.2.1, h.2.2.1⟩

/-- When the fuel supplied by `runMatch` is exhausted, the loop guard is
already true, so the fuelled loop and the source's `while` loop agree. -/
lemma matchIsOver_of_fuel_zero (gt : String) (s : AnyState)
    (h : matchFuel s = 0) : matchIsOver gt s = true := by
  have hr : s.totalRounds < s.roundNumber := by
    unfold matchFuel at h
    omega
  unfold matchIsOver
  split_ifs <;>
    cases s <;>
    simp_all [negIsOver, rwIsOver, aucIsOver, AnyState.totalRounds, AnyState.roundNumber]

lemma runMatchAux_blocks (gt : String) (oracle : Oracle) (coins : AnyState → Agent) :
    ∀ (fuel : Nat) (s : AnyState), ∃ blocks : List (List MatchEvent),
      runMatchAux gt oracle coins fuel s = blocks.flatten
      ∧ ∀ b ∈ blocks, ∃ (r : Int) (np nq : Nat),
          b = [MatchEvent.round_start r, .thinking_start .red, .thinking_start .blue]
              ++ predEvents .red np ++ predEvents .blue nq
              ++ [.thinking_end .red, .thinking_end .blue, .collapse, .round_end r]
  | 0, s => ⟨[], rfl, by simp⟩
  | fuel + 1, s => by
    by_cases h : matchIsOver gt s
    · exact ⟨[], by simp [runMatchAux, h], by simp⟩
    · obtain ⟨blocks, hb1, hb2⟩ :=
        runMatchAux_blocks gt oracle coins fuel ((runRound gt oracle (coins s) s).2).incRound
      refine ⟨(runRound gt oracle (coins s) s).1 :: blocks, ?_, ?_⟩
      · simp only [runMatchAux, h, Bool.false_eq_true, if_false, List.flatten_cons]
        rw [hb1]
      · intro b hb
        rcases List.mem_cons.mp hb with rfl | hb'
        · exact ⟨s.roundNumber,
            (getPrediction gt oracle s .red).predictions.length,
            (getPrediction gt oracle s .blue).predictions.length, rfl⟩
        · exact hb2 b hb'

/-- C9: every complete match run emits `match_start` first and `match_end`
last, and in between a concatenation of per-round blocks, each of which is
`round_start`, both `thinking_start`s, the two sides' `prediction` streams,
both `thinking_end`s, `collapse`, `round_end`, in that order. -/
theorem c9_event_stream_order (gt : String) (oracle : Oracle)
    (coins : AnyState → Agent) (s : AnyState) :
    ∃ blocks : List (List MatchEvent),
      runMatch gt oracle coins s
        = MatchEvent.match_start :: (blocks.flatten ++ [MatchEvent.match_end])
      ∧ (runMatch gt oracle coins s).head? = some MatchEvent.match_start
      ∧ (runMatch gt oracle coins s).getLast? = some MatchEvent.match_end
      ∧ ∀ b ∈ blocks, ∃ (r : Int) (np nq : Nat),
          b = [MatchEvent.round_start r, .thinking_start .red, .thinking_start .blue]
              ++ predEvents .red np ++ predEvents .blue nq
              ++ [.thinking_end .red, .thinking_end .blue, .collapse, .round_end r] := by
  obtain ⟨blocks, h1, h2⟩ := runMatchAux_blocks gt oracle coins (matchFuel s) s
  refine ⟨blocks, by simp [runMatch, h1], rfl, ?_, h2⟩
  show (MatchEvent.match_start :: (runMatchAux gt oracle coins (matchFuel s) s
      ++ [MatchEvent.match_end])).getLast? = some MatchEvent.match_end
  rw [show MatchEvent.match_start :: (runMatchAux gt oracle coins (matchFuel s) s
      ++ [MatchEvent.match_end])
    = (MatchEvent.match_start :: runMatchAux gt oracle coins (matchFuel s) s)
      ++ [MatchEvent.match_end] from rfl]
  exact List.getLast?_concat _

/-- C4: if either side's decision call fails in a round, that side's move is
the variant default while the other side's move is unaffected; the round is
still resolved, its event block still ends in `round_end`, and the loop
proceeds to the next round — the match still terminates in `match_end`. -/
theorem c4_decision_failure_fallback (gt : String) (oracle : Oracle)
    (coins : AnyState → Agent) (s : AnyState) :
    (oracle s .red = none →
      (roundMoves gt oracle s).1 = matchDefaultMove gt
      ∧ (∀ oracle' : Oracle, oracle' s .blue = oracle s .blue →
          (roundMoves gt oracle' s).2 = (roundMoves gt oracle s).2)
      ∧ (runRound gt oracle (coins s) s).2
          = matchResolveState gt (coins s) (matchDefaultMove gt)
              (roundMoves gt oracle s).2 s
      ∧ (∃ pre, (runRound gt oracle (coins s) s).1
          = pre ++ [MatchEvent.round_end s.roundNumber])
      ∧ (∀ fuel, matchIsOver gt s = false →
          runMatchAux gt oracle coins (fuel + 1) s
            = (runRound gt oracle (coins s) s).1
              ++ runMatchAux gt oracle coins fuel
                  ((runRound gt oracle (coins s) s).2).incRound)
      ∧ (runMatch gt oracle coins s).getLast? = some MatchEvent.match_end)
    ∧ (oracle s .blue = none →
      (roundMoves gt oracle s).2 = matchDefaultMove gt
      ∧ (∀ oracle' : Oracle, oracle' s .red = oracle s .red →
          (roundMoves gt oracle' s).1 = (roundMoves gt oracle s).1)
      ∧ (runRound gt oracle (coins s) s).2
          = matchResolveState gt (coins s) (roundMoves gt oracle s).1
              (matchDefaultMove gt) s
      ∧ (∃ pre, (runRound gt oracle (coins s) s).1
          = pre ++ [MatchEvent.round_end s.roundNumber])
      ∧ (∀ fuel, matchIsOver gt s = false →
          runMatchAux gt oracle coins (fuel + 1) s
            = (runRound gt oracle (coins s) s).1
              ++ runMatchAux gt oracle coins fuel
                  ((runRound gt oracle (coins s) s).2).incRound)
      ∧ (runMatch gt oracle coins s).getLast? = some MatchEvent.match_end) := by
  constructor
  · intro hfail
    have h1 : (roundMoves gt oracle s).1 = matchDefaultMove gt := by
      simp [roundMoves, getPrediction, hfail]
    refine ⟨h1, ?_, ?_, ?_, ?_, ?_⟩
    · intro oracle' h
      simp [roundMoves, getPrediction, h]
    · rw [show (runRound gt oracle (coins s) s).2
          = matchResolveState gt (coins s) (roundMoves gt oracle s).1
              (roundMoves gt oracle s).2 s from rfl, h1]
    · exact ⟨[MatchEvent.round_start s.roundNumber, .thinking_start .red,
        .thinking_start .blue]
          ++ predEvents .red (getPrediction gt oracle s .red).predictions.length
          ++ predEvents .blue (getPrediction gt oracle s .blue).predictions.length
          ++ [.thinking_end .red, .thinking_end .blue, .collapse],
        by simp [runRound]⟩
    · intro fuel h
      simp [runMatchAux, h]
    · rw [show runMatch gt oracle coins s
          = (MatchEvent.match_start :: runMatchAux gt oracle coins (matchFuel s) s)
            ++ [MatchEvent.match_end] from rfl]
      exact List.getLast?_concat _
  · intro hfail
    have h1 : (roundMoves gt oracle s).2 = matchDefaultMove gt := by
      simp [roundMoves, getPrediction, hfail]
    refine ⟨h1, ?_, ?_, ?_, ?_, ?_⟩
    · intro oracle' h
      simp [roundMoves, getPrediction, h]
    · rw [show (runRound gt oracle (coins s) s).2
          = matchResolveState gt (coins s) (roundMoves gt oracle s).1
              (roundMoves gt oracle s).2 s from rfl, h1]
    · exact ⟨[MatchEvent.round_start s.roundNumber, .thinking_start .red,
        .thinking_start .blue]
          ++ predEvents .red (getPrediction gt oracle s .red).predictions.length
          ++ predEvents .blue (getPrediction gt oracle s .blue).predictions.length
          ++ [.thinking_end .red, .thinking_end .blue, .collapse],
        by simp [runRound]⟩
    · intro fuel h
      simp [runMatchAux, h]
    · rw [show runMatch gt oracle coins s
          = (MatchEvent.match_start :: runMatchAux gt oracle coins (matchFuel s) s)
            ++ [MatchEvent.match_end] from rfl]
      exact List.getLast?_concat _

/-- C4 witness: a red-side failure (red falls back to the default move,
blue's chosen move stands) and a blue-side failure (blue falls back, red's
chosen move stands), both on the initial Resource Capture state, both with
the stream still closing in `match_end`. -/
theorem c4_decision_failure_fallback_witness :
    oracleEx (AnyState.resourceWars (initGameState 2)) .red = none
    ∧ (roundMoves "resource_wars" oracleEx (.resourceWars (initGameState 2))).1
        = matchDefaultMove "resource_wars"
    ∧ (roundMoves "resource_wars" oracleEx (.resourceWars (initGameState 2))).2
        = AnyMove.resourceWars ⟨.aggressive_bid, .A, 50⟩
    ∧ (∃ pre, (runRound "resource_wars" oracleEx .red
          (.resourceWars (initGameState 2))).1
        = pre ++ [MatchEvent.round_end 1])
    ∧ (runMatch "resource_wars" oracleEx coinsEx
        (.resourceWars (initGameState 2))).getLast? = some MatchEvent.match_end
    ∧ oracleExB (AnyState.resourceWars (initGameState 2)) .blue = none
    ∧ (roundMoves "resource_wars" oracleExB (.resourceWars (initGameState 2))).2
        = matchDefaultMove "resource_wars"
    ∧ (roundMoves "resource_wars" oracleExB (.resourceWars (initGameState 2))).1
        = AnyMove.resourceWars ⟨.counter, .B, 40⟩
    ∧ (∃ pre, (runRound "resource_wars" oracleExB .red
          (.resourceWars (initGameState 2))).1
        = pre ++ [MatchEvent.round_end 1])
    ∧ (runMatch "resource_wars" oracleExB coinsEx
        (.resourceWars (initGameState 2))).getLast? = some MatchEvent.match_end := by
  have h := (c4_decision_failure_fallback "resource_wars" oracleEx coinsEx
    (.resourceWars (initGameState 2))).1 rfl
  have hb := (c4_decision_failure_fallback "resource_wars" oracleExB coinsEx
    (.resourceWars (initGameState 2))).2 rfl
  exact ⟨rfl, h.1, rfl, h.2.2.2.1, h.2.2.2.2.2,
    rfl, hb.1, rfl, hb.2.2.2.1, hb.2.2.2.2.2⟩

/-- C6: the orchestrator has no `gpu_bidding` branch — a match configured
with the Dynamic-Price Bidding tag falls through to the Resource Capture
`else` arm: it gets a Resource Capture game state, the Resource Capture
round resolver, and the Resource Capture default move. -/
theorem c6_gpu_bidding_falls_through_to_resource_wars :
    (∀ (n rwalk bwalk : Int) (items : List AuctionItem),
      matchInitState "gpu_bidding" n rwalk bwalk items
        = AnyState.resourceWars (initGameState n))
    ∧ (∀ (coin : Agent) (rm bm : Move) (g : GameState),
      matchResolveState "gpu_bidding" coin (.resourceWars rm) (.resourceWars bm)
          (.resourceWars g)
        = .resourceWars (resolveRound rm bm g).1)
    ∧ matchDefaultMove "gpu_bidding" = AnyMove.resourceWars default_move
    ∧ (∀ g : GameState,
      matchIsOver "gpu_bidding" (.resourceWars g) = rwIsOver g) := by
  refine ⟨fun n rwalk bwalk items => ?_, fun coin rm bm g => ?_, ?_, fun g => ?_⟩ <;>
    simp [matchInitState, matchResolveState, matchDefaultMove, matchIsOver]
